import Mathlib

/-!
Verification of the multi-PID query/response engine of the `pi_mcp2515`
datalogger against its natural-language specification.

The definitions below are a shallow embedding of the Python source:

* `dictInsert` / `storeGet` model Python dict assignment `d[k] = v` and
  lookup `d.get(k)`: assignment replaces the value of the first (and, for
  stores built by assignment alone, only) occurrence of the key in place,
  and otherwise appends the new binding at the end, exactly as a Python
  dict preserves insertion order.
* `DataLogger.chunker` models the static method of the same name in
  `src/core/datalogger.py` (slicing `seq[pos:pos+size]` for
  `pos in range(0, len(seq), size)`).
* Hex strings are modelled as lists of hex-digit values (one entry per
  character, value `0..15`), so cursor arithmetic in the Python parser
  (which moves in units of hex characters) is mirrored exactly.
-/

/-- Python dict assignment `d[k] = v`: replace the first binding of `k`
in place, else append `(k, v)` at the end. -/
def dictInsert {β : Type} : List (String × β) → String → β → List (String × β)
  | [], k, v => [(k, v)]
  | p :: rest, k, v => if p.1 = k then (k, v) :: rest else p :: dictInsert rest k v

/-- Python dict lookup `d.get(k)`: value of the first binding of `k`. -/
def storeGet {β : Type} : List (String × β) → String → Option β
  | [], _ => none
  | p :: rest, k => if p.1 = k then some p.2 else storeGet rest k

theorem storeGet_dictInsert {β : Type} (s : List (String × β)) (k k' : String) (v : β) :
    storeGet (dictInsert s k' v) k = if k = k' then some v else storeGet s k := by
  induction s with
  | nil =>
    by_cases h : k = k'
    · simp [dictInsert, storeGet, h]
    · have h' : ¬ k' = k := fun e => h e.symm
      simp [dictInsert, storeGet, h, h']
  | cons p rest ih =>
    by_cases hp : p.1 = k'
    · by_cases h : k = k'
      · subst h
        simp [dictInsert, storeGet, hp]
      · have h' : ¬ k' = k := fun e => h e.symm
        have hpk : ¬ p.1 = k := by rw [hp]; exact h'
        simp [dictInsert, storeGet, hp, h, h', hpk]
    · by_cases hpk : p.1 = k
      · have h : ¬ k = k' := fun e => hp (by rw [hpk, e])
        simp [dictInsert, storeGet, hp, hpk, h]
      · simp [dictInsert, storeGet, hp, hpk, ih]

theorem storeGet_dictInsert_isSome {β : Type} (s : List (String × β)) (k k' : String)
    (v : β) (h : (storeGet s k).isSome = true) :
    (storeGet (dictInsert s k' v) k).isSome = true := by
  rw [storeGet_dictInsert]
  by_cases hk : k = k' <;> simp [hk, h]

/-- A python-obd style command record: name, mode-01 PID code, length of
the full data payload in bytes (`Mode + PID + Value`, field `bytes` in
python-obd), and a pure decoder applied to the data bytes
`[mode, pid, value...]` of a minimal message. -/
structure OBDCommand where
  name : String
  pid : Nat
  bytes : Nat
  decode : List Nat → ℚ

namespace DataLogger

/-- Embeds `DataLogger.chunker` (src/core/datalogger.py lines 401-404):
`for pos in range(0, len(seq), size): yield seq[pos:pos + size]`.
A zero step is outside the source's use (Python `range` would raise);
the poll cycle always calls it with `size = 6`. -/
def chunker {α : Type} (seq : List α) (size : Nat) : List (List α) :=
  if _h : size = 0 then []
  else if _h2 : seq.length = 0 then []
  else seq.take size :: chunker (seq.drop size) size
termination_by seq.length
decreasing_by
  simp only [List.length_drop]
  omega

theorem chunker_nil {α : Type} (size : Nat) : chunker ([] : List α) size = [] := by
  rw [chunker]; simp

theorem chunker_cons {α : Type} (seq : List α) (size : Nat) (h : size ≠ 0)
    (h2 : seq ≠ []) :
    chunker seq size = seq.take size :: chunker (seq.drop size) size := by
  rw [chunker]
  have h2' : seq.length ≠ 0 := fun e => h2 (List.eq_nil_of_length_eq_zero e)
  simp [h, h2']

theorem chunker_flatten_aux {α : Type} (n : Nat) :
    ∀ l : List α, l.length ≤ n → (chunker l 6).flatten = l := by
  induction n with
  | zero =>
    intro l h
    have : l = [] := List.eq_nil_of_length_eq_zero (Nat.le_zero.mp h)
    simp [this, chunker_nil]
  | succ n ih =>
    intro l h
    by_cases hl : l = []
    · simp [hl, chunker_nil]
    · rw [chunker_cons l 6 (by omega) hl]
      have hlen : 0 < l.length := List.length_pos.mpr hl
      have : (l.drop 6).length ≤ n := by
        simp only [List.length_drop]; omega
      simp [ih (l.drop 6) this]

theorem chunker_length_aux {α : Type} (n : Nat) :
    ∀ l : List α, l.length ≤ n → (chunker l 6).length = (l.length + 5) / 6 := by
  induction n with
  | zero =>
    intro l h
    have : l = [] := List.eq_nil_of_length_eq_zero (Nat.le_zero.mp h)
    simp [this, chunker_nil]
  | succ n ih =>
    intro l h
    by_cases hl : l = []
    · simp [hl, chunker_nil]
    · rw [chunker_cons l 6 (by omega) hl]
      have hlen : 0 < l.length := List.length_pos.mpr hl
      have hd : (l.drop 6).length ≤ n := by
        simp only [List.length_drop]; omega
      have := ih (l.drop 6) hd
      simp only [List.length_cons, this, List.length_drop]
      omega

theorem chunker_getD_aux {α : Type} (n : Nat) :
    ∀ l : List α, l.length ≤ n → ∀ i, i < (chunker l 6).length →
      (chunker l 6).getD i [] = (l.drop (6 * i)).take 6 := by
  induction n with
  | zero =>
    intro l h i hi
    have : l = [] := List.eq_nil_of_length_eq_zero (Nat.le_zero.mp h)
    simp [this, chunker_nil] at hi
  | succ n ih =>
    intro l h i hi
    by_cases hl : l = []
    · simp [hl, chunker_nil] at hi
    · rw [chunker_cons l 6 (by omega) hl] at hi ⊢
      match i with
      | 0 => simp
      | Nat.succ j =>
        have hlen : 0 < l.length := List.length_pos.mpr hl
        have hd : (l.drop 6).length ≤ n := by
          simp only [List.length_drop]; omega
        have hj : j < (chunker (l.drop 6) 6).length := by
          simpa using hi
        have := ih (l.drop 6) hd j hj
        simp only [List.getD_cons_succ, this, List.drop_drop]
        congr 2
        omega

theorem chunker_mem_length_aux {α : Type} (n : Nat) :
    ∀ l : List α, l.length ≤ n → ∀ g ∈ chunker l 6, g.length ≤ 6 := by
  induction n with
  | zero =>
    intro l h g hg
    have : l = [] := List.eq_nil_of_length_eq_zero (Nat.le_zero.mp h)
    simp [this, chunker_nil] at hg
  | succ n ih =>
    intro n_l h g hg
    by_cases hl : n_l = []
    · simp [hl, chunker_nil] at hg
    · rw [chunker_cons n_l 6 (by omega) hl] at hg
      rcases List.mem_cons.mp hg with hg | hg
      · subst hg
        simp only [List.length_take]
        exact Nat.min_le_left 6 n_l.length
      · have hlen : 0 < n_l.length := List.length_pos.mpr hl
        have hd : (n_l.drop 6).length ≤ n := by
          simp only [List.length_drop]; omega
        exact ih (n_l.drop 6) hd g hg

/-- `group_by_pid = {cmd.pid: cmd for cmd in group}` followed by
`group_by_pid.get(pid_int_from_response)` (src/core/datalogger.py
line 416 and 426): in a dict comprehension a later duplicate key
overwrites an earlier one, so lookup returns the last command in the
group with the given pid, or `none`. -/
def lookupPid (group : List OBDCommand) (p : Nat) : Option OBDCommand :=
  group.foldl (fun acc c => if c.pid = p then some c else acc) none

/-- `bytearray.fromhex`: consecutive pairs of hex digits become bytes. -/
def nibblesToBytes : List Nat → List Nat
  | a :: b :: rest => (16 * a + b) :: nibblesToBytes rest
  | _ => []

/-- `bytes.hex()`: each byte becomes two hex digits. -/
def bytesToNibbles : List Nat → List Nat
  | [] => []
  | b :: rest => b / 16 :: b % 16 :: bytesToNibbles rest

/-- The `while pointer < len(full_response_hex)` scanning loop of
`DataLogger._parse_multi_pid_response` (src/core/datalogger.py lines
420-465).  The cursor is modelled by consuming the hex digits that lie
after it, so `full_response_hex[pointer:]` is the first argument; the
second component of the result counts the executed loop iterations
(a `break` iteration included).  Per iteration: read the next byte as a
candidate PID (`int(.., 16)` after `.upper()`, the identity on digit
values) and advance 2 hex digits; on a known PID take
`num_value_bytes = command.bytes - 2`, stop if fewer hex digits remain,
else slice the value, decode `Mode + PID + Value` and store under the
command's name; on an unknown PID skip one further byte. -/
def parseLoop (group : List OBDCommand) :
    List Nat → List (String × ℚ) → List (String × ℚ) × Nat
  | [], results => (results, 0)
  | [_], results => (results, 1)
  | a :: b :: rest, results =>
    let pidInt := 16 * a + b
    match lookupPid group pidInt with
    | some command =>
      let numValueBytes := command.bytes - 2
      if rest.length < numValueBytes * 2 then (results, 1)
      else
        let valueNibbles := rest.take (numValueBytes * 2)
        let dataBytes := 65 :: pidInt :: nibblesToBytes valueNibbles
        let results2 := dictInsert results command.name (command.decode dataBytes)
        let out := parseLoop group (rest.drop (numValueBytes * 2)) results2
        (out.1, out.2 + 1)
    | none =>
      let out := parseLoop group (rest.drop 2) results
      (out.1, out.2 + 1)
termination_by hx _ => hx.length
decreasing_by
  all_goals simp only [List.length_drop, List.length_cons]
  all_goals omega

/-- Embeds `DataLogger._parse_multi_pid_response` (src/core/datalogger.py
lines 406-465): return `{}` unless the joined hex string starts with the
`41` mode echo, then scan from hex offset 2. -/
def parse_multi_pid_response (group : List OBDCommand) (hx : List Nat) :
    List (String × ℚ) :=
  match hx with
  | a :: b :: rest => if a = 4 ∧ b = 1 then (parseLoop group rest []).1 else []
  | _ => []

/-- Number of iterations the scanning loop of
`DataLogger._parse_multi_pid_response` executes on a payload. -/
def parse_iterations (group : List OBDCommand) (hx : List Nat) : Nat :=
  match hx with
  | a :: b :: rest => if a = 4 ∧ b = 1 then (parseLoop group rest []).2 else 0
  | _ => 0

end DataLogger

theorem length_bytesToNibbles (l : List Nat) :
    (DataLogger.bytesToNibbles l).length = 2 * l.length := by
  induction l with
  | nil => rfl
  | cons b rest ih => simp [DataLogger.bytesToNibbles, ih]; omega

theorem bytesToNibbles_append (xs ys : List Nat) :
    DataLogger.bytesToNibbles (xs ++ ys) =
      DataLogger.bytesToNibbles xs ++ DataLogger.bytesToNibbles ys := by
  induction xs with
  | nil => rfl
  | cons b rest ih => simp [DataLogger.bytesToNibbles, ih]

theorem nibblesToBytes_bytesToNibbles (l : List Nat) :
    DataLogger.nibblesToBytes (DataLogger.bytesToNibbles l) = l := by
  induction l with
  | nil => rfl
  | cons b rest ih =>
    simp [DataLogger.bytesToNibbles, DataLogger.nibblesToBytes, ih]
    omega

theorem storeGet_append {β : Type} (s t : List (String × β)) (k : String) :
    storeGet (s ++ t) k =
      match storeGet s k with
      | some v => some v
      | none => storeGet t k := by
  induction s with
  | nil => simp [storeGet]
  | cons p rest ih =>
    by_cases hp : p.1 = k <;> simp [storeGet, hp, ih]

theorem dictInsert_of_fresh {β : Type} (s : List (String × β)) (k : String) (v : β)
    (h : storeGet s k = none) : dictInsert s k v = s ++ [(k, v)] := by
  induction s with
  | nil => rfl
  | cons p rest ih =>
    by_cases hp : p.1 = k
    · simp [storeGet, hp] at h
    · simp [storeGet, hp] at h
      simp [dictInsert, hp, ih h]

theorem take_append_of_length {α : Type} (l₁ l₂ : List α) (n : Nat)
    (h : l₁.length = n) : (l₁ ++ l₂).take n = l₁ := by
  induction l₁ generalizing n with
  | nil => simp at h; subst h; simp
  | cons a rest ih =>
    cases n with
    | zero => simp at h
    | succ m =>
      simp only [List.length_cons, Nat.succ.injEq] at h
      simp [List.take_succ_cons, ih m h]

theorem drop_append_of_length {α : Type} (l₁ l₂ : List α) (n : Nat)
    (h : l₁.length = n) : (l₁ ++ l₂).drop n = l₂ := by
  induction l₁ generalizing n with
  | nil => simp at h; subst h; simp
  | cons a rest ih =>
    cases n with
    | zero => simp at h
    | succ m =>
      simp only [List.length_cons, Nat.succ.injEq] at h
      simp [List.drop_succ_cons, ih m h]

namespace DataLogger

theorem parseLoop_field (group : List OBDCommand) (c : OBDCommand)
    (vb rest : List Nat) (results : List (String × ℚ))
    (hfind : lookupPid group c.pid = some c)
    (hlen : vb.length = c.bytes - 2) :
    parseLoop group (bytesToNibbles (c.pid :: vb) ++ rest) results =
      ((parseLoop group rest
          (dictInsert results c.name (c.decode (65 :: c.pid :: vb)))).1,
       (parseLoop group rest
          (dictInsert results c.name (c.decode (65 :: c.pid :: vb)))).2 + 1) := by
  have hpid : 16 * (c.pid / 16) + c.pid % 16 = c.pid := Nat.div_add_mod c.pid 16
  have hnib : (bytesToNibbles vb).length = (c.bytes - 2) * 2 := by
    rw [length_bytesToNibbles, hlen]; omega
  simp only [bytesToNibbles, List.cons_append]
  rw [parseLoop]
  simp only [hpid, hfind]
  rw [if_neg (by rw [List.length_append, hnib]; omega)]
  rw [take_append_of_length _ _ _ hnib, drop_append_of_length _ _ _ hnib,
    nibblesToBytes_bytesToNibbles]

theorem parseLoop_skip (group : List OBDCommand) (u j : Nat) (rest : List Nat)
    (results : List (String × ℚ))
    (hfind : lookupPid group u = none) :
    parseLoop group (bytesToNibbles [u, j] ++ rest) results =
      ((parseLoop group rest results).1, (parseLoop group rest results).2 + 1) := by
  have hpid : 16 * (u / 16) + u % 16 = u := Nat.div_add_mod u 16
  simp only [bytesToNibbles, List.cons_append, List.nil_append]
  rw [parseLoop]
  simp only [hpid, hfind, List.drop_succ_cons, List.drop_zero]

theorem parseLoop_truncated (group : List OBDCommand) (c : OBDCommand)
    (vb : List Nat) (results : List (String × ℚ))
    (hfind : lookupPid group c.pid = some c)
    (hshort : vb.length < c.bytes - 2) :
    parseLoop group (bytesToNibbles (c.pid :: vb)) results = (results, 1) := by
  have hpid : 16 * (c.pid / 16) + c.pid % 16 = c.pid := Nat.div_add_mod c.pid 16
  simp only [bytesToNibbles]
  rw [parseLoop]
  simp only [hpid, hfind]
  rw [if_pos (by rw [length_bytesToNibbles]; omega)]

theorem parseLoop_nil (group : List OBDCommand) (results : List (String × ℚ)) :
    parseLoop group [] results = (results, 0) := by
  rw [parseLoop]

theorem parseLoop_one (group : List OBDCommand) (a : Nat)
    (results : List (String × ℚ)) :
    parseLoop group [a] results = (results, 1) := by
  rw [parseLoop]

theorem parseLoop_cons_unknown (group : List OBDCommand) (a b : Nat)
    (rest : List Nat) (results : List (String × ℚ))
    (hfind : lookupPid group (16 * a + b) = none) :
    parseLoop group (a :: b :: rest) results =
      ((parseLoop group (rest.drop 2) results).1,
       (parseLoop group (rest.drop 2) results).2 + 1) := by
  rw [parseLoop]
  simp only [hfind]

theorem parseLoop_cons_trunc (group : List OBDCommand) (a b : Nat)
    (rest : List Nat) (results : List (String × ℚ)) (c : OBDCommand)
    (hfind : lookupPid group (16 * a + b) = some c)
    (hshort : rest.length < (c.bytes - 2) * 2) :
    parseLoop group (a :: b :: rest) results = (results, 1) := by
  rw [parseLoop]
  simp only [hfind]
  rw [if_pos hshort]

theorem parseLoop_cons_known (group : List OBDCommand) (a b : Nat)
    (rest : List Nat) (results : List (String × ℚ)) (c : OBDCommand)
    (hfind : lookupPid group (16 * a + b) = some c)
    (hlong : ¬ rest.length < (c.bytes - 2) * 2) :
    parseLoop group (a :: b :: rest) results =
      ((parseLoop group (rest.drop ((c.bytes - 2) * 2))
          (dictInsert results c.name
            (c.decode (65 :: (16 * a + b) ::
              nibblesToBytes (rest.take ((c.bytes - 2) * 2)))))).1,
       (parseLoop group (rest.drop ((c.bytes - 2) * 2))
          (dictInsert results c.name
            (c.decode (65 :: (16 * a + b) ::
              nibblesToBytes (rest.take ((c.bytes - 2) * 2)))))).2 + 1) := by
  rw [parseLoop]
  simp only [hfind]
  rw [if_neg hlong]

theorem parseLoop_field_fst (group : List OBDCommand) (c : OBDCommand)
    (vb rest : List Nat) (results : List (String × ℚ))
    (hfind : lookupPid group c.pid = some c)
    (hlen : vb.length = c.bytes - 2) :
    (parseLoop group (bytesToNibbles (c.pid :: vb) ++ rest) results).1 =
      (parseLoop group rest
        (dictInsert results c.name (c.decode (65 :: c.pid :: vb)))).1 := by
  rw [parseLoop_field group c vb rest results hfind hlen]

theorem parseLoop_skip_fst (group : List OBDCommand) (u j : Nat) (rest : List Nat)
    (results : List (String × ℚ))
    (hfind : lookupPid group u = none) :
    (parseLoop group (bytesToNibbles [u, j] ++ rest) results).1 =
      (parseLoop group rest results).1 := by
  rw [parseLoop_skip group u j rest results hfind]

theorem parseLoop_skip_last (group : List OBDCommand) (u : Nat)
    (results : List (String × ℚ))
    (hfind : lookupPid group u = none) :
    parseLoop group (bytesToNibbles [u]) results = (results, 1) := by
  have hpid : 16 * (u / 16) + u % 16 = u := Nat.div_add_mod u 16
  simp only [bytesToNibbles]
  rw [parseLoop]
  simp only [hpid, hfind, List.drop_nil, parseLoop_nil]

/-- The concatenated `[pid, value-bytes]` tuples of a request group's
reply, as the spec's round-trip law builds them. -/
def buildFieldBytes : List (OBDCommand × List Nat) → List Nat
  | [] => []
  | f :: rest => f.1.pid :: (f.2 ++ buildFieldBytes rest)

theorem parseLoop_fields (group : List OBDCommand)
    (fields : List (OBDCommand × List Nat)) (rest : List Nat)
    (results : List (String × ℚ))
    (hmem : ∀ f ∈ fields, lookupPid group f.1.pid = some f.1)
    (hlen : ∀ f ∈ fields, f.2.length = f.1.bytes - 2)
    (hfresh : ∀ f ∈ fields, storeGet results f.1.name = none)
    (hnodup : (fields.map (fun f => f.1.name)).Nodup) :
    (parseLoop group (bytesToNibbles (buildFieldBytes fields) ++ rest) results).1 =
      (parseLoop group rest
        (results ++
          fields.map (fun f => (f.1.name, f.1.decode (65 :: f.1.pid :: f.2))))).1 := by
  induction fields generalizing results with
  | nil => simp [buildFieldBytes, bytesToNibbles]
  | cons f fs ih =>
    have hcons : buildFieldBytes (f :: fs) = (f.1.pid :: f.2) ++ buildFieldBytes fs := by
      simp [buildFieldBytes]
    rw [hcons, bytesToNibbles_append, List.append_assoc]
    rw [parseLoop_field_fst group f.1 f.2 _ results (hmem f (by simp))
      (hlen f (by simp))]
    have hfreshf : storeGet results f.1.name = none := hfresh f (by simp)
    rw [dictInsert_of_fresh results f.1.name _ hfreshf]
    rw [List.map_cons] at hnodup
    have hnodup' := List.nodup_cons.mp hnodup
    have hmem' : ∀ g ∈ fs, lookupPid group g.1.pid = some g.1 :=
      fun g hg => hmem g (List.mem_cons_of_mem f hg)
    have hlen' : ∀ g ∈ fs, g.2.length = g.1.bytes - 2 :=
      fun g hg => hlen g (List.mem_cons_of_mem f hg)
    have hfresh' : ∀ g ∈ fs,
        storeGet (results ++ [(f.1.name, f.1.decode (65 :: f.1.pid :: f.2))])
          g.1.name = none := by
      intro g hg
      rw [storeGet_append, hfresh g (List.mem_cons_of_mem f hg)]
      have hne : g.1.name ≠ f.1.name := by
        intro e
        exact hnodup'.1 (e ▸ List.mem_map_of_mem (fun x => x.1.name) hg)
      simp [storeGet, Ne.symm hne]
    rw [ih (results ++ [(f.1.name, f.1.decode (65 :: f.1.pid :: f.2))])
      hmem' hlen' hfresh' hnodup'.2]
    simp [List.append_assoc]

theorem parseLoop_field_last_fst (group : List OBDCommand) (c : OBDCommand)
    (vb : List Nat) (results : List (String × ℚ))
    (hfind : lookupPid group c.pid = some c)
    (hlen : vb.length = c.bytes - 2) :
    (parseLoop group (bytesToNibbles (c.pid :: vb)) results).1 =
      dictInsert results c.name (c.decode (65 :: c.pid :: vb)) := by
  have h := parseLoop_field_fst group c vb [] results hfind hlen
  rw [List.append_nil] at h
  rw [h, parseLoop_nil]

theorem bytesToNibbles_cons65 (l : List Nat) :
    bytesToNibbles (65 :: l) = 4 :: 1 :: bytesToNibbles l := rfl

end DataLogger

/-- Embeds `decode_response` from src/scripts/obd_socketcan_probe.py
(lines 31-56): the reply frame data is `[len, mode(=0x41), pid, data...]`;
RPM (0x0C) decodes as `((A<<8)+B)/4`, Speed (0x0D) as `A`, Coolant (0x05)
as `A - 40`; an unknown PID yields the raw marker tuple. -/
def decode_response (d : List Nat) : Option (String × ℚ × String) :=
  if d.length < 3 then none
  else if d.getD 1 0 ≠ 65 then none
  else if d.getD 2 0 = 12 ∧ 5 ≤ d.length then
    some ("RPM", ((d.getD 3 0 : ℚ) * 256 + (d.getD 4 0 : ℚ)) / 4, "rpm")
  else if d.getD 2 0 = 13 ∧ 4 ≤ d.length then
    some ("Speed", (d.getD 3 0 : ℚ), "km/h")
  else if d.getD 2 0 = 5 ∧ 4 ≤ d.length then
    some ("Coolant Temp", (d.getD 3 0 : ℚ) - 40, "degC")
  else some ("PID", ((d.getD 2 0 : ℕ) : ℚ), "raw")

/-- Modelled from the spec: the per-PID decoders that
`_parse_multi_pid_response` calls through `command.decode` come from the
python-obd library, which is loaded at runtime and is not part of this
repository; the repository's own `decode_response`
(src/scripts/obd_socketcan_probe.py) and the spec's example fix the
standard formula `RPM = ((A<<8)+B)/4`, here applied to minimal-message
data bytes `[mode, pid, A, B]`. -/
def rpmDecode (d : List Nat) : ℚ :=
  ((d.getD 2 0 : ℚ) * 256 + (d.getD 3 0 : ℚ)) / 4

/-- Modelled from the spec: python-obd's coolant-temperature decoder,
`A - 40` on data bytes `[mode, pid, A]`, as also fixed by
`decode_response` in src/scripts/obd_socketcan_probe.py and the spec's
example. -/
def coolantDecode (d : List Nat) : ℚ :=
  (d.getD 2 0 : ℚ) - 40

/-- `rpmDecode` agrees with the repository's `decode_response` on every
RPM reply frame (the frame carries one extra leading length byte). -/
theorem rpmDecode_decode_response (len a b : Nat) :
    decode_response [len, 65, 12, a, b] = some ("RPM", rpmDecode [65, 12, a, b], "rpm") := by
  simp [decode_response, rpmDecode, List.getD]

/-- `coolantDecode` agrees with the repository's `decode_response` on
every coolant-temperature reply frame. -/
theorem coolantDecode_decode_response (len a : Nat) :
    decode_response [len, 65, 5, a] =
      some ("Coolant Temp", coolantDecode [65, 5, a], "degC") := by
  simp [decode_response, coolantDecode, List.getD]

/-- The RPM command descriptor: PID 0x0C, full payload length 4
(mode + pid + two data bytes), as the spec's catalog states. -/
def RPM : OBDCommand := { name := "RPM", pid := 12, bytes := 4, decode := rpmDecode }

/-- The coolant-temperature command descriptor: PID 0x05, full payload
length 3 (mode + pid + one data byte). -/
def COOLANT_TEMP : OBDCommand :=
  { name := "COOLANT_TEMP", pid := 5, bytes := 3, decode := coolantDecode }

/-- The spec's example selection `["RPM", "COOLANT_TEMP"]` as a request
group. -/
def demoGroup : List OBDCommand := [RPM, COOLANT_TEMP]

/-- The spec's example reply values: RPM data bytes `1A DE`, coolant data
byte `50`. -/
def demoFields : List (OBDCommand × List Nat) := [(RPM, [26, 222]), (COOLANT_TEMP, [80])]


namespace DataLogger

/-- C4: parsing round-trips. For every request group and every assignment
of value bytes of the catalog-declared lengths (`bytes - 2` per command),
parsing the payload built as the `41` mode echo followed by the
concatenated `[pidCode, valueBytes]` tuples yields exactly the group
members' names, each mapped to the decode of its `Mode + PID + Value`
bytes, in order. -/
theorem parse_roundtrip (group : List OBDCommand)
    (fields : List (OBDCommand × List Nat))
    (hmem : ∀ f ∈ fields, lookupPid group f.1.pid = some f.1)
    (hlen : ∀ f ∈ fields, f.2.length = f.1.bytes - 2)
    (hnodup : (fields.map (fun f => f.1.name)).Nodup) :
    parse_multi_pid_response group (bytesToNibbles (65 :: buildFieldBytes fields)) =
      fields.map (fun f => (f.1.name, f.1.decode (65 :: f.1.pid :: f.2))) := by
  rw [bytesToNibbles_cons65]
  show (parseLoop group (bytesToNibbles (buildFieldBytes fields)) []).1 = _
  have hfields := parseLoop_fields group fields [] [] hmem hlen (fun f _ => rfl) hnodup
  rw [List.append_nil] at hfields
  rw [hfields, parseLoop_nil]
  simp

/-- Witness for C4: the spec's example payload `410C1ADE0550` decodes to
`RPM = ((0x1A<<8)+0xDE)/4 = 1719.5` and `COOLANT_TEMP = 0x50 - 40 = 40`. -/
theorem parse_roundtrip_witness :
    parse_multi_pid_response demoGroup [4, 1, 0, 12, 1, 10, 13, 14, 0, 5, 5, 0] =
      [("RPM", (3439 : ℚ) / 2), ("COOLANT_TEMP", 40)] := by
  have h := parse_roundtrip demoGroup demoFields
    (by
      intro f hf
      simp only [demoFields, List.mem_cons, List.not_mem_nil, or_false] at hf
      rcases hf with rfl | rfl <;> rfl)
    (by
      intro f hf
      simp only [demoFields, List.mem_cons, List.not_mem_nil, or_false] at hf
      rcases hf with rfl | rfl <;> rfl)
    (by decide)
  have e1 : bytesToNibbles (65 :: buildFieldBytes demoFields) =
      [4, 1, 0, 12, 1, 10, 13, 14, 0, 5, 5, 0] := rfl
  have e2 : demoFields.map (fun f => (f.1.name, f.1.decode (65 :: f.1.pid :: f.2))) =
      [("RPM", (3439 : ℚ) / 2), ("COOLANT_TEMP", 40)] := by
    norm_num [demoFields, RPM, COOLANT_TEMP, rpmDecode, coolantDecode]
  rw [e1, e2] at h
  exact h

/-- C5: a payload truncated inside its last field (fewer value bytes than
the matched descriptor requires) makes the parser stop at that field and
return exactly the earlier, fully decoded fields; the truncated field is
omitted and no exception is possible (the embedding is a total
function). -/
theorem parse_truncated_partial (group : List OBDCommand)
    (fields : List (OBDCommand × List Nat)) (c : OBDCommand) (cut : List Nat)
    (hmem : ∀ f ∈ fields, lookupPid group f.1.pid = some f.1)
    (hlen : ∀ f ∈ fields, f.2.length = f.1.bytes - 2)
    (hnodup : (fields.map (fun f => f.1.name)).Nodup)
    (hfound : lookupPid group c.pid = some c)
    (hshort : cut.length < c.bytes - 2) :
    parse_multi_pid_response group
      (bytesToNibbles (65 :: (buildFieldBytes fields ++ c.pid :: cut))) =
      fields.map (fun f => (f.1.name, f.1.decode (65 :: f.1.pid :: f.2))) := by
  rw [bytesToNibbles_cons65, bytesToNibbles_append]
  show (parseLoop group
    (bytesToNibbles (buildFieldBytes fields) ++ bytesToNibbles (c.pid :: cut)) []).1 = _
  rw [parseLoop_fields group fields (bytesToNibbles (c.pid :: cut)) []
    hmem hlen (fun f _ => rfl) hnodup]
  rw [parseLoop_truncated group c cut _ hfound hshort]
  simp

/-- Witness for C5: the payload `410C1ADE05` (coolant field truncated
before its data byte) still decodes RPM and omits COOLANT_TEMP. -/
theorem parse_truncated_partial_witness :
    parse_multi_pid_response demoGroup [4, 1, 0, 12, 1, 10, 13, 14, 0, 5] =
      [("RPM", (3439 : ℚ) / 2)] := by
  have h := parse_truncated_partial demoGroup [(RPM, [26, 222])] COOLANT_TEMP []
    (by
      intro f hf
      simp only [List.mem_cons, List.not_mem_nil, or_false] at hf
      subst hf; rfl)
    (by
      intro f hf
      simp only [List.mem_cons, List.not_mem_nil, or_false] at hf
      subst hf; rfl)
    (by decide) rfl (by decide)
  have e1 : bytesToNibbles (65 :: (buildFieldBytes [(RPM, [26, 222])] ++
      COOLANT_TEMP.pid :: [])) = [4, 1, 0, 12, 1, 10, 13, 14, 0, 5] := rfl
  have e2 : ([(RPM, [26, 222])].map
      (fun f => (f.1.name, f.1.decode (65 :: f.1.pid :: f.2)))) =
      [("RPM", (3439 : ℚ) / 2)] := by
    norm_num [RPM, rpmDecode]
  rw [e1, e2] at h
  exact h

/-- Counterexample for C3: with the group `[RPM, COOLANT_TEMP]` and the
payload `410C1ADEFF0550` — a well-formed RPM field, then exactly one
unrecognized PID byte `FF`, then a well-formed COOLANT_TEMP field — the
parser decodes only RPM.  The recovery path advances the cursor two
bytes (the unrecognized PID byte plus one byte it assumes to be that
PID's value, src/core/datalogger.py lines 459-463), so the coolant
field's PID byte `05` is consumed by the skip and the second known PID
is not decoded, contradicting the claim's one-byte-skip statement. -/
theorem skip_recovery_counterexample :
    parse_multi_pid_response demoGroup
        [4, 1, 0, 12, 1, 10, 13, 14, 15, 15, 0, 5, 5, 0] =
      [("RPM", (3439 : ℚ) / 2)] ∧
    ¬ ("COOLANT_TEMP" ∈ (parse_multi_pid_response demoGroup
        [4, 1, 0, 12, 1, 10, 13, 14, 15, 15, 0, 5, 5, 0]).map Prod.fst) := by
  have e : parse_multi_pid_response demoGroup
      [4, 1, 0, 12, 1, 10, 13, 14, 15, 15, 0, 5, 5, 0] =
      [("RPM", (3439 : ℚ) / 2)] := by
    show (parseLoop demoGroup
      (bytesToNibbles (RPM.pid :: [26, 222]) ++ [15, 15, 0, 5, 5, 0]) []).1 = _
    rw [parseLoop_field_fst demoGroup RPM [26, 222] [15, 15, 0, 5, 5, 0] [] rfl rfl]
    show (parseLoop demoGroup (bytesToNibbles [255, 5] ++ [5, 0])
      (dictInsert [] RPM.name (RPM.decode (65 :: RPM.pid :: [26, 222])))).1 = _
    rw [parseLoop_skip_fst demoGroup 255 5 [5, 0] _ rfl]
    show (parseLoop demoGroup (bytesToNibbles [80])
      (dictInsert [] RPM.name (RPM.decode (65 :: RPM.pid :: [26, 222])))).1 = _
    rw [parseLoop_skip_last demoGroup 80 _ rfl]
    norm_num [dictInsert, RPM, rpmDecode]
  exact ⟨e, by rw [e]; decide⟩

/-- C3 as amended: the unknown-PID recovery advances the cursor by two
bytes — the unrecognized PID byte plus one byte assumed to be its
one-byte value.  Hence for every payload consisting of the `41` echo, a
well-formed field for a known PID, one unrecognized PID byte followed by
one (value) byte, and then a well-formed field for a second known PID,
the parser decodes both known PIDs. -/
theorem skip_recovery_two_bytes (group : List OBDCommand)
    (c1 c2 : OBDCommand) (vb1 vb2 : List Nat) (u j : Nat)
    (h1 : lookupPid group c1.pid = some c1)
    (h2 : lookupPid group c2.pid = some c2)
    (hu : lookupPid group u = none)
    (hl1 : vb1.length = c1.bytes - 2)
    (hl2 : vb2.length = c2.bytes - 2)
    (hname : c1.name ≠ c2.name) :
    parse_multi_pid_response group
      (bytesToNibbles (65 :: ((c1.pid :: vb1) ++ [u, j] ++ (c2.pid :: vb2)))) =
      [(c1.name, c1.decode (65 :: c1.pid :: vb1)),
       (c2.name, c2.decode (65 :: c2.pid :: vb2))] := by
  rw [bytesToNibbles_cons65, bytesToNibbles_append, bytesToNibbles_append,
    List.append_assoc]
  show (parseLoop group
    (bytesToNibbles (c1.pid :: vb1) ++
      (bytesToNibbles [u, j] ++ bytesToNibbles (c2.pid :: vb2))) []).1 = _
  rw [parseLoop_field_fst group c1 vb1 _ [] h1 hl1]
  rw [parseLoop_skip_fst group u j _ _ hu]
  rw [parseLoop_field_last_fst group c2 vb2 _ h2 hl2]
  simp [dictInsert, hname]

/-- Witness for C3's amended statement: payload `410C1ADEFF000550`
(unknown PID `FF` carrying the junk value byte `00`) decodes both RPM
and COOLANT_TEMP. -/
theorem skip_recovery_two_bytes_witness :
    parse_multi_pid_response demoGroup
        [4, 1, 0, 12, 1, 10, 13, 14, 15, 15, 0, 0, 0, 5, 5, 0] =
      [("RPM", (3439 : ℚ) / 2), ("COOLANT_TEMP", 40)] := by
  have h := skip_recovery_two_bytes demoGroup RPM COOLANT_TEMP [26, 222] [80]
    255 0 rfl rfl rfl rfl rfl (by decide)
  have e1 : bytesToNibbles (65 :: ((RPM.pid :: [26, 222]) ++ [255, 0] ++
      (COOLANT_TEMP.pid :: [80]))) =
      [4, 1, 0, 12, 1, 10, 13, 14, 15, 15, 0, 0, 0, 5, 5, 0] := rfl
  have e2 : [(RPM.name, RPM.decode (65 :: RPM.pid :: [26, 222])),
      (COOLANT_TEMP.name, COOLANT_TEMP.decode (65 :: COOLANT_TEMP.pid :: [80]))] =
      [("RPM", (3439 : ℚ) / 2), ("COOLANT_TEMP", 40)] := by
    norm_num [RPM, COOLANT_TEMP, rpmDecode, coolantDecode]
  rw [e1, e2] at h
  exact h

end DataLogger

/-- A seven-command selection, used to instantiate the grouping law. -/
def demo7 : List OBDCommand :=
  [RPM, COOLANT_TEMP, RPM, COOLANT_TEMP, RPM, COOLANT_TEMP, RPM]

namespace DataLogger

/-- C1: for every list of selected PID commands, `chunker` with size 6
(as the poll cycle uses it, src/core/datalogger.py line 519) produces
`ceil(n/6)` groups, each of size at most 6; group `i` is exactly the
slice `[i*6, i*6+6)` of the input in original order; the concatenation
of the groups is the original list; and the empty list yields zero
groups. -/
theorem chunker_groups_spec (l : List OBDCommand) :
    (chunker l 6).length = (l.length + 5) / 6 ∧
    (∀ g ∈ chunker l 6, g.length ≤ 6) ∧
    (∀ i, i < (chunker l 6).length →
      (chunker l 6).getD i [] = (l.drop (6 * i)).take 6) ∧
    (chunker l 6).flatten = l ∧
    chunker ([] : List OBDCommand) 6 = [] :=
  ⟨chunker_length_aux l.length l le_rfl,
   chunker_mem_length_aux l.length l le_rfl,
   chunker_getD_aux l.length l le_rfl,
   chunker_flatten_aux l.length l le_rfl,
   chunker_nil 6⟩

/-- Witness for C1: on a seven-command selection the second group is the
slice from index 6. -/
theorem chunker_groups_spec_witness :
    (chunker demo7 6).getD 1 [] = (demo7.drop (6 * 1)).take 6 := by
  have h := chunker_groups_spec demo7
  exact h.2.2.1 1 (by rw [h.1]; decide)

theorem parseLoop_cons_unknown_snd (group : List OBDCommand) (a b : Nat)
    (rest : List Nat) (results : List (String × ℚ))
    (hfind : lookupPid group (16 * a + b) = none) :
    (parseLoop group (a :: b :: rest) results).2 =
      (parseLoop group (rest.drop 2) results).2 + 1 := by
  rw [parseLoop_cons_unknown group a b rest results hfind]

theorem parseLoop_cons_known_snd (group : List OBDCommand) (a b : Nat)
    (rest : List Nat) (results : List (String × ℚ)) (c : OBDCommand)
    (hfind : lookupPid group (16 * a + b) = some c)
    (hlong : ¬ rest.length < (c.bytes - 2) * 2) :
    (parseLoop group (a :: b :: rest) results).2 =
      (parseLoop group (rest.drop ((c.bytes - 2) * 2))
        (dictInsert results c.name
          (c.decode (65 :: (16 * a + b) ::
            nibblesToBytes (rest.take ((c.bytes - 2) * 2)))))).2 + 1 := by
  rw [parseLoop_cons_known group a b rest results c hfind hlong]

theorem parseLoop_count_le (group : List OBDCommand) :
    ∀ (n : Nat) (hx : List Nat) (results : List (String × ℚ)), hx.length ≤ n →
      (parseLoop group hx results).2 ≤ (hx.length + 1) / 2 := by
  intro n
  induction n with
  | zero =>
    intro hx results h
    have : hx = [] := List.eq_nil_of_length_eq_zero (Nat.le_zero.mp h)
    subst this
    rw [parseLoop_nil]
    simp
  | succ n ih =>
    intro hx results h
    rcases hx with _ | ⟨a, _ | ⟨b, rest⟩⟩
    · rw [parseLoop_nil]
      simp
    · rw [parseLoop_one]
      simp
    · rcases hfind : lookupPid group (16 * a + b) with _ | c
      · rw [parseLoop_cons_unknown_snd group a b rest results hfind]
        have hlen2 : (rest.drop 2).length ≤ n := by
          simp only [List.length_drop]
          simp only [List.length_cons] at h
          omega
        have hb := ih (rest.drop 2) results hlen2
        simp only [List.length_drop] at hb
        simp only [List.length_cons]
        omega
      · by_cases hshort : rest.length < (c.bytes - 2) * 2
        · rw [parseLoop_cons_trunc group a b rest results c hfind hshort]
          simp only [List.length_cons]
          omega
        · rw [parseLoop_cons_known_snd group a b rest results c hfind hshort]
          have hlen2 : (rest.drop ((c.bytes - 2) * 2)).length ≤ n := by
            simp only [List.length_drop]
            simp only [List.length_cons] at h
            omega
          have hb := ih (rest.drop ((c.bytes - 2) * 2))
            (dictInsert results c.name
              (c.decode (65 :: (16 * a + b) ::
                nibblesToBytes (rest.take ((c.bytes - 2) * 2))))) hlen2
          simp only [List.length_drop] at hb
          simp only [List.length_cons]
          omega

/-- C10: the scanning loop of `_parse_multi_pid_response` terminates on
every finite input, executing at most `len(payload)/2` iterations (the
payload length counted in hex characters, so one iteration per response
byte at most): every iteration either stops the loop or advances the
cursor by at least one byte.  The hypothesis records the regime in which
the embedding's natural-number `command.bytes - 2` agrees with Python's
integer subtraction: every mode-01 command has `bytes ≥ 2`
(mode + pid echo), as the source comments and the spec's
`payloadLength >= 2` invariant state. -/
theorem parse_iterations_bound (group : List OBDCommand) (hx : List Nat)
    (hbytes : ∀ c ∈ group, 2 ≤ c.bytes) :
    parse_iterations group hx ≤ hx.length / 2 := by
  rcases hx with _ | ⟨a, _ | ⟨b, rest⟩⟩
  · simp [parse_iterations]
  · simp [parse_iterations]
  · show (if a = 4 ∧ b = 1 then (parseLoop group rest []).2 else 0) ≤ _
    by_cases hab : a = 4 ∧ b = 1
    · rw [if_pos hab]
      have hcount := parseLoop_count_le group rest.length rest [] le_rfl
      simp only [List.length_cons]
      omega
    · rw [if_neg hab]
      simp

/-- Witness for C10 on the example group and the round-trip payload. -/
theorem parse_iterations_bound_witness :
    parse_iterations demoGroup [4, 1, 0, 12, 1, 10, 13, 14, 0, 5, 5, 0] ≤
      ([4, 1, 0, 12, 1, 10, 13, 14, 0, 5, 5, 0] : List Nat).length / 2 :=
  parse_iterations_bound demoGroup _ (by decide)

/-- The two timing quantities of one poll cycle, in milliseconds:
`interval_ms` from `config['datalogging']['logging_interval_ms']` and
the measured `cycle_ms` (src/core/datalogger.py lines 517, 568-569). -/
structure CycleTiming where
  intervalMs : ℚ
  cycleMs : ℚ

/-- Embeds the overrun check of `DataLogger.run`
(src/core/datalogger.py line 573): a warning is emitted exactly when
`cycle_ms > interval_ms`. -/
def run_overrun_warning (t : CycleTiming) : Bool :=
  decide (t.intervalMs < t.cycleMs)

/-- Embeds the end-of-cycle sleep of `DataLogger.run`
(src/core/datalogger.py line 867):
`time.sleep(self.config['datalogging']['logging_interval_ms'] / 1000.0)`
— the full configured interval (here kept in milliseconds), taking no
account of how long the cycle took. -/
def run_end_sleep_ms (t : CycleTiming) : ℚ := t.intervalMs

/-- The sleep duration the spec claims (refinement target, following the
spec's words): `max(0, targetInterval - cycleDuration)`. -/
def spec_end_sleep_ms (t : CycleTiming) : ℚ :=
  max 0 (t.intervalMs - t.cycleMs)

/-- Counterexample for C2: with a 100 ms target interval and a 180 ms
cycle, the code emits the overrun warning but then sleeps the full
100 ms before the next tick, not the `max(0, 100 - 180) = 0` the claim
requires — the next tick does not start immediately. -/
theorem cycle_sleep_counterexample :
    run_overrun_warning ⟨100, 180⟩ = true ∧
    spec_end_sleep_ms ⟨100, 180⟩ = 0 ∧
    run_end_sleep_ms ⟨100, 180⟩ = 100 ∧
    run_end_sleep_ms ⟨100, 180⟩ ≠ spec_end_sleep_ms ⟨100, 180⟩ := by
  refine ⟨?_, ?_, rfl, ?_⟩
  · simp [run_overrun_warning]
    norm_num
  · simp [spec_end_sleep_ms]
    norm_num
  · simp [run_end_sleep_ms, spec_end_sleep_ms]
    norm_num

/-- C2 as amended: at the end of every poll cycle the worker sleeps the
full configured interval, regardless of the measured cycle duration; the
overrun warning is emitted exactly when the cycle exceeded the target
interval, but an overrun does not shorten or skip the sleep. -/
theorem cycle_sleep_full_interval (t : CycleTiming) :
    run_end_sleep_ms t = t.intervalMs ∧
    (run_overrun_warning t = true ↔ t.intervalMs < t.cycleMs) :=
  ⟨rfl, by simp [run_overrun_warning]⟩

end DataLogger

/-- A value held in the datalogger's shared `data_store` dict. -/
inductive StoreVal where
  | num (q : ℚ)
  | str (s : String)
  | bool (b : Bool)
  deriving DecidableEq

/-- The shared `data_store`, in insertion order. -/
abbrev Store := List (String × StoreVal)

namespace DataLogger

/-- Embeds the per-group response handling of `DataLogger.run`
(src/core/datalogger.py lines 555-562): a non-null response merges its
name → value items into `data_store`; a null response writes `"N/A"`
over every command name of the group. -/
def processGroup (store : Store) (group : List OBDCommand)
    (response : Option (List (String × ℚ))) : Store :=
  match response with
  | some vals => vals.foldl (fun s p => dictInsert s p.1 (StoreVal.num p.2)) store
  | none => group.foldl (fun s c => dictInsert s c.name (StoreVal.str "N/A")) store

/-- Embeds `DataLogger.fetch_external_sensor_data`
(src/core/datalogger.py lines 278-298): nothing happens when the esp32
section is disabled; otherwise every device that answered HTTP 200
merges its JSON items into `data_store` as strings, a failing device
changes nothing, and finally `esp32_online` is set to the string of
whether any device answered. -/
def fetch_external_sensor_data (store : Store) (enabled : Bool)
    (devices : List (Option (List (String × String)))) : Store :=
  if enabled = false then store
  else
    let store2 := devices.foldl
      (fun s d =>
        match d with
        | some data =>
          data.foldl (fun s2 kv => dictInsert s2 kv.1 (StoreVal.str kv.2)) s
        | none => s) store
    dictInsert store2 "esp32_online"
      (StoreVal.str (if devices.any (fun d => d.isSome) then "True" else "False"))

/-- The inputs of one pass of the `while self.running` loop of
`DataLogger.run` that reach `data_store`: the request groups with their
transport responses, the external-sensor fetch inputs, and the remaining
per-tick dict assignments (`pid_groups_per_cycle`, `pid_read_count`,
`last_cycle_duration_ms`, `Boost_Pressure_PSI`, `Commanded_AFR`,
`Measured_AFR`, the `Fuel_*` metrics — all plain `data_store[k] = v`
assignments), modelled as a key/value list. -/
structure TickInput where
  groups : List (List OBDCommand × Option (List (String × ℚ)))
  espEnabled : Bool
  espDevices : List (Option (List (String × String)))
  derived : List (String × StoreVal)

/-- One pass of the polling loop of `DataLogger.run`
(src/core/datalogger.py lines 515-867) as it acts on `data_store`. -/
def tick (store : Store) (t : TickInput) : Store :=
  let s1 := t.groups.foldl (fun s g => processGroup s g.1 g.2) store
  let s2 := fetch_external_sensor_data s1 t.espEnabled t.espDevices
  t.derived.foldl (fun s kv => dictInsert s kv.1 kv.2) s2

/-- Iterated polling passes. -/
def runTicks (store : Store) (ts : List TickInput) : Store :=
  ts.foldl tick store

/-- Embeds the `data_store` initialisation of `DataLogger.__init__`
(src/core/datalogger.py lines 73-89): every selected PID name starts at
`"N/A"`, then the fixed bookkeeping fields follow in source order;
`startTime` stands for the `datetime.now()` stored under
`last_stop_time`. -/
def initDataStore (selected : List String) (startTime : ℚ) : Store :=
  let base := selected.foldl (fun s n => dictInsert s n (StoreVal.str "N/A")) []
  dictInsert (dictInsert (dictInsert (dictInsert (dictInsert (dictInsert
    (dictInsert (dictInsert (dictInsert base
      "Boost_Pressure_PSI" (StoreVal.str "N/A"))
      "Commanded_AFR" (StoreVal.str "N/A"))
      "Measured_AFR" (StoreVal.str "N/A"))
      "log_active" (StoreVal.bool false))
      "connection_status" (StoreVal.str "Connecting..."))
      "esp32_online" (StoreVal.bool false))
      "last_stop_time" (StoreVal.num startTime))
      "log_file_name" (StoreVal.str ""))
    "pid_read_count" (StoreVal.num 0)

theorem markNA_get (group : List OBDCommand) (store : Store) (k : String) :
    storeGet (group.foldl
        (fun s c => dictInsert s c.name (StoreVal.str "N/A")) store) k =
      if group.any (fun c => decide (c.name = k)) then some (StoreVal.str "N/A")
      else storeGet store k := by
  induction group generalizing store with
  | nil => simp
  | cons c rest ih =>
    simp only [List.foldl_cons, List.any_cons]
    rw [ih]
    by_cases hk : c.name = k
    · by_cases hr : rest.any (fun c => decide (c.name = k)) = true
      · simp [hk, hr]
      · simp only [Bool.not_eq_true] at hr
        simp [hk, hr, storeGet_dictInsert]
    · by_cases hr : rest.any (fun c => decide (c.name = k)) = true
      · simp [hk, hr]
      · simp only [Bool.not_eq_true] at hr
        simp [hk, hr, storeGet_dictInsert, Ne.symm hk]

/-- C7: within a poll tick, a null transport response for a group makes
`DataLogger.run` write `"N/A"` over every PID name of that group in the
DataStore — no stale prior value survives for those names — while this
step leaves every key outside the group's names unchanged. -/
theorem null_response_marks_group_na (store : Store) (group : List OBDCommand) :
    (∀ c ∈ group, storeGet (processGroup store group none) c.name =
      some (StoreVal.str "N/A")) ∧
    (∀ k : String, (∀ c ∈ group, c.name ≠ k) →
      storeGet (processGroup store group none) k = storeGet store k) := by
  constructor
  · intro c hc
    rw [processGroup, markNA_get]
    rw [if_pos]
    rw [List.any_eq_true]
    exact ⟨c, hc, by simp⟩
  · intro k hk
    rw [processGroup, markNA_get]
    rw [if_neg]
    simp only [List.any_eq_true, not_exists]
    intro c
    simp only [not_and, decide_eq_true_eq]
    exact fun hc => hk c hc

/-- Witness for C7: after a null response for the example group, the
store initialised with selection `["RPM"]` holds `"N/A"` under `RPM`,
and an unrelated key is untouched. -/
theorem null_response_marks_group_na_witness :
    storeGet (processGroup (initDataStore ["RPM"] 0) demoGroup none) "RPM" =
      some (StoreVal.str "N/A") ∧
    storeGet (processGroup (initDataStore ["RPM"] 0) demoGroup none)
        "connection_status" =
      storeGet (initDataStore ["RPM"] 0) "connection_status" := by
  constructor
  · exact (null_response_marks_group_na (initDataStore ["RPM"] 0) demoGroup).1
      RPM (List.Mem.head _)
  · exact (null_response_marks_group_na (initDataStore ["RPM"] 0) demoGroup).2
      "connection_status" (by decide)

theorem foldl_insert_isSome {γ : Type} (key : γ → String) (val : γ → StoreVal)
    (l : List γ) (store : Store) (k : String)
    (h : (storeGet store k).isSome = true) :
    (storeGet (l.foldl (fun s x => dictInsert s (key x) (val x)) store) k).isSome
      = true := by
  induction l generalizing store with
  | nil => exact h
  | cons x rest ih =>
    exact ih _ (storeGet_dictInsert_isSome store k (key x) (val x) h)

theorem processGroup_isSome (store : Store) (group : List OBDCommand)
    (response : Option (List (String × ℚ))) (k : String)
    (h : (storeGet store k).isSome = true) :
    (storeGet (processGroup store group response) k).isSome = true := by
  match response with
  | some vals =>
    exact foldl_insert_isSome (fun p => p.1) (fun p => StoreVal.num p.2)
      vals store k h
  | none =>
    exact foldl_insert_isSome (fun c => c.name) (fun _ => StoreVal.str "N/A")
      group store k h

theorem fetch_external_isSome (store : Store) (enabled : Bool)
    (devices : List (Option (List (String × String)))) (k : String)
    (h : (storeGet store k).isSome = true) :
    (storeGet (fetch_external_sensor_data store enabled devices) k).isSome
      = true := by
  rw [fetch_external_sensor_data]
  by_cases he : enabled = false
  · rw [if_pos he]; exact h
  · rw [if_neg he]
    apply storeGet_dictInsert_isSome
    induction devices generalizing store with
    | nil => exact h
    | cons d rest ih =>
      rw [List.foldl_cons]
      apply ih
      match d with
      | none => exact h
      | some data =>
        exact foldl_insert_isSome (fun kv => kv.1)
          (fun kv => StoreVal.str kv.2) data store k h

theorem tick_isSome (store : Store) (t : TickInput) (k : String)
    (h : (storeGet store k).isSome = true) :
    (storeGet (tick store t) k).isSome = true := by
  rw [tick]
  have aux : ∀ (gs : List (List OBDCommand × Option (List (String × ℚ))))
      (s : Store), (storeGet s k).isSome = true →
      (storeGet (gs.foldl (fun s2 g => processGroup s2 g.1 g.2) s) k).isSome
        = true := by
    intro gs
    induction gs with
    | nil => intro s hs; exact hs
    | cons g rest ih =>
      intro s hs
      rw [List.foldl_cons]
      exact ih _ (processGroup_isSome s g.1 g.2 k hs)
  exact foldl_insert_isSome (fun kv => kv.1) (fun kv => kv.2) t.derived _ k
    (fetch_external_isSome _ t.espEnabled t.espDevices k (aux t.groups store h))

/-- C8: the DataStore keeps a stable field set.  Every update the
logger's loop performs on `data_store` is a plain dict assignment
(`processGroup`, `fetch_external_sensor_data`, and the derived per-tick
fields), so any key present in the store stays present — possibly
overwritten, also with `"N/A"` — across every later tick. -/
theorem data_store_keys_persist (store : Store) (ts : List TickInput)
    (k : String) (h : (storeGet store k).isSome = true) :
    (storeGet (runTicks store ts) k).isSome = true := by
  rw [runTicks]
  induction ts generalizing store with
  | nil => exact h
  | cons t rest ih =>
    rw [List.foldl_cons]
    exact ih (tick store t) (tick_isSome store t k h)

/-- Witness for C8: the initial store's `RPM` key survives a tick whose
group query failed (and was overwritten with `"N/A"`). -/
theorem data_store_keys_persist_witness :
    (storeGet (runTicks (initDataStore ["RPM"] 0)
      [⟨[(demoGroup, none)], false, [], []⟩]) "RPM").isSome = true :=
  data_store_keys_persist (initDataStore ["RPM"] 0)
    [⟨[(demoGroup, none)], false, [], []⟩] "RPM" (by decide)

end DataLogger

/-- The mutable state of `WirelessOBDAdapter`
(src/core/wireless_obd_adapter.py lines 27-43): the `is_connected` flag
(initialised `False`) and the cached JSON payload `last_data`
(initialised `{}`), which also carries the `timestamp` key that the
background loop stores into it. -/
structure WirelessOBDAdapter where
  is_connected : Bool
  last_data : List (String × ℚ)

namespace WirelessOBDAdapter

/-- The string-keyed `pid_mapping` that `_ensure_pid_mapping` builds
(src/core/wireless_obd_adapter.py lines 101-107); with python-obd
present the keys are the command objects of these same names. -/
def pid_mapping : List (String × String) :=
  [("RPM", "rpm"), ("ENGINE_LOAD", "engineLoad"), ("INTAKE_TEMP", "intakeTemp"),
   ("INTAKE_PRESSURE", "manifoldPressure"), ("SPEED", "vehicleSpeed"),
   ("THROTTLE_POS", "throttlePos"), ("COOLANT_TEMP", "coolantTemp"),
   ("MAF", "mafRate")]

/-- Embeds `WirelessOBDAdapter.query`
(src/core/wireless_obd_adapter.py lines 131-169) at query time `now`:
`None` when not connected, when no data is cached, when the cache is
stale (`time.time() - data.get('timestamp', 0) > 5`), when the command
is not in `pid_mapping`, or when the mapped field is absent from the
cache; otherwise the cached raw value (`_create_obd_response` wraps the
magnitude without changing it).  The function performs no network
request: it reads only the cached state and the clock. -/
def query (st : WirelessOBDAdapter) (now : ℚ) (cmd : String) : Option ℚ :=
  if st.is_connected = false then none
  else if st.last_data = [] then none
  else if 5 < now - ((storeGet st.last_data "timestamp").getD 0) then none
  else
    match storeGet pid_mapping cmd with
    | none => none
    | some field =>
      match storeGet st.last_data field with
      | none => none
      | some raw => some raw

/-- The state assignments of the adapter's operations
(src/core/wireless_obd_adapter.py): `connect` returns `True` on HTTP 200
without assigning `is_connected` (lines 47-57), assigns it `False` on a
request exception (lines 62-65), and leaves the state alone on a non-200
status (lines 58-60); `disconnect` assigns `False` (lines 67-73); the
background `_data_loop` stores a fetched payload plus a `timestamp` into
`last_data` on HTTP 200 (lines 112-119) and changes nothing on a failed
fetch. -/
inductive AdapterEvent where
  | connectOk
  | connectHttpError
  | connectException
  | disconnect
  | dataLoopOk (data : List (String × ℚ)) (now : ℚ)
  | dataLoopFail

/-- State transition for one adapter event. -/
def step (st : WirelessOBDAdapter) : AdapterEvent → WirelessOBDAdapter
  | .connectOk => st
  | .connectHttpError => st
  | .connectException => ⟨false, st.last_data⟩
  | .disconnect => ⟨false, st.last_data⟩
  | .dataLoopOk data now => ⟨st.is_connected, dictInsert data "timestamp" now⟩
  | .dataLoopFail => st

/-- `__init__`: disconnected, empty cache. -/
def init : WirelessOBDAdapter := ⟨false, []⟩

/-- The state after a sequence of adapter events, from `__init__`. -/
def runEvents (evs : List AdapterEvent) : WirelessOBDAdapter :=
  evs.foldl step init

/-- C9: `is_connected` is `False` in every state reachable through the
adapter's operations — it starts `False`, `connect` returns `True` on
HTTP 200 without ever assigning it `True`, and the only assignments to
it (connect failure, disconnect) set it `False` — and consequently
`query` returns `None` for every command at every query time in every
reachable state. -/
theorem never_connected (evs : List AdapterEvent) :
    (runEvents evs).is_connected = false ∧
    ∀ (now : ℚ) (cmd : String), query (runEvents evs) now cmd = none := by
  have hconn : ∀ (st : WirelessOBDAdapter) (l : List AdapterEvent),
      st.is_connected = false → (l.foldl step st).is_connected = false := by
    intro st l
    induction l generalizing st with
    | nil => intro h; exact h
    | cons e rest ih =>
      intro h
      apply ih
      cases e <;> simp [step, h]
  have h1 : (runEvents evs).is_connected = false := hconn init evs rfl
  exact ⟨h1, fun now cmd => by simp [query, h1]⟩

/-- C6: whenever the cached payload's timestamp is older than the
5-second staleness window at query time, `query` returns `None` even
though a value is cached; a cached payload inside the window — with the
adapter connected, the command mapped, and the mapped field cached — is
returned from the cache (and `query` performs no network I/O: it is a
pure function of the cached state and the clock). -/
theorem query_staleness (st : WirelessOBDAdapter) (now : ℚ)
    (cmd field : String) (raw : ℚ) :
    (5 < now - ((storeGet st.last_data "timestamp").getD 0) →
      query st now cmd = none) ∧
    (st.is_connected = true → st.last_data ≠ [] →
      ¬ 5 < now - ((storeGet st.last_data "timestamp").getD 0) →
      storeGet pid_mapping cmd = some field →
      storeGet st.last_data field = some raw →
      query st now cmd = some raw) := by
  constructor
  · intro hstale
    by_cases hc : st.is_connected = false
    · simp [query, hc]
    · by_cases hd : st.last_data = []
      · simp [query, hc, hd]
      · simp [query, hc, hd, hstale]
  · intro hc hd hfresh hmap hfield
    simp [query, hc, hd, hfresh, hmap, hfield]

/-- Witness for C6: with a payload cached at time 10, a query at time 20
returns `None` though `rpm = 850` is cached, and a query at time 12
returns the cached 850. -/
theorem query_staleness_witness :
    query ⟨true, [("timestamp", 10), ("rpm", 850)]⟩ 20 "RPM" = none ∧
    query ⟨true, [("timestamp", 10), ("rpm", 850)]⟩ 12 "RPM" = some 850 := by
  constructor
  · exact (query_staleness ⟨true, [("timestamp", 10), ("rpm", 850)]⟩
      20 "RPM" "rpm" 850).1 (by norm_num [storeGet])
  · exact (query_staleness ⟨true, [("timestamp", 10), ("rpm", 850)]⟩
      12 "RPM" "rpm" 850).2 rfl (by simp) (by norm_num [storeGet])
      (by norm_num [storeGet, pid_mapping]) (by norm_num [storeGet]; decide)

end WirelessOBDAdapter

namespace DataLogger

/-- Witness for C2's amended statement at the spec's example timing
(100 ms target, 180 ms cycle): the warning fires, yet the full 100 ms
sleep still happens. -/
theorem cycle_sleep_full_interval_witness :
    run_end_sleep_ms ⟨100, 180⟩ = (100 : ℚ) ∧
    run_overrun_warning ⟨100, 180⟩ = true :=
  ⟨(cycle_sleep_full_interval ⟨100, 180⟩).1,
   (cycle_sleep_full_interval ⟨100, 180⟩).2.mpr (by norm_num)⟩

end DataLogger

namespace WirelessOBDAdapter

/-- Witness for C9: even after a successful `connect` (HTTP 200) and a
successful background data fetch, the flag is still `False` and a query
for a cached, fresh field returns `None`. -/
theorem never_connected_witness :
    (runEvents [AdapterEvent.connectOk,
      AdapterEvent.dataLoopOk [("rpm", 850)] 10]).is_connected = false ∧
    query (runEvents [AdapterEvent.connectOk,
      AdapterEvent.dataLoopOk [("rpm", 850)] 10]) 12 "RPM" = none :=
  ⟨(never_connected [AdapterEvent.connectOk,
      AdapterEvent.dataLoopOk [("rpm", 850)] 10]).1,
   (never_connected [AdapterEvent.connectOk,
      AdapterEvent.dataLoopOk [("rpm", 850)] 10]).2 12 "RPM"⟩

end WirelessOBDAdapter
